import Mathlib

/-!
Verification of the price-event pipeline of the bybit repository.

Prices and quantities are modelled as rationals (the idealized semantics of
the JavaScript numbers used by the source); timestamps as integers
(milliseconds, as returned by Date.now()). Each stateful handler of the
source is embedded as a pure Lean function from its inputs and the mutable
module-level state it reads to the updated state together with the list of
payloads it sends onward.
-/

namespace Bybit

/-! ### Configuration constants

From src/binance_listener.js lines 37-44, src/data_receiver_server.js
line 147 (AVERAGE_PRICE_CHANGE_THRESHOLD), and src/unnamed/part_002
lines 40-41 (the Bybit futures listener's tick size and send interval). -/

def MINIMUM_TICK_SIZE : ℚ := 2/10

def IMBALANCE_THRESHOLD_UPPER : ℚ := 83/100

def IMBALANCE_THRESHOLD_LOWER : ℚ := 17/100

def FAKE_PRICE_OFFSET : ℚ := 1

def IMBALANCE_WINDOW_MS : ℤ := 50

def AVERAGE_PRICE_CHANGE_THRESHOLD : ℚ := 1

def MINIMUM_TICK_SIZE_BYBIT : ℚ := 1/10

def SEND_INTERVAL_MS : ℕ := 20

/-! ### Change Filter

src/unnamed/part_001 lines 99-111 (the per-source deadband, shared shape
with the standard tick logic of src/binance_listener.js lines 104-111):
`shouldSendPrice = (last_sent_price === null) ||
(Math.abs(newPrice - last_sent_price) >= MINIMUM_TICK_SIZE)`;
on send, `last_sent_price = newPrice`. -/

def shouldSendPrice (tick : ℚ) (lastSent : Option ℚ) (newPrice : ℚ) : Bool :=
  match lastSent with
  | none => true
  | some last => decide (tick ≤ |newPrice - last|)

/-- One message-handler step of the change filter: the updated
`last_sent_price` state and whether the price was emitted. -/
def filterStep (tick : ℚ) (lastSent : Option ℚ) (newPrice : ℚ) :
    Option ℚ × Bool :=
  if shouldSendPrice tick lastSent newPrice then (some newPrice, true)
  else (lastSent, false)

/-- Emitted subsequence of a sequence of raw prices fed to the change
filter, starting from state `lastSent`. -/
def filterRun (tick : ℚ) (lastSent : Option ℚ) : List ℚ → List ℚ
  | [] => []
  | p :: ps =>
    if shouldSendPrice tick lastSent p then p :: filterRun tick (some p) ps
    else filterRun tick lastSent ps

/-! ### Imbalance Trigger Detector (src/binance_listener.js)

The listener keeps module-level state (lines 52-63): `last_sent_price`,
`latestSpotData`, `last_fake_buy_price_sent`, `last_fake_sell_price_sent`,
`lastFuturesTick`, `pendingImbalanceCheck`, and the reusable
`payload_to_send` object whose optional `f` field is tracked by `payloadF`.
Spot messages carry best bid/ask price and quantity (fields b, B, a, A);
futures messages carry best bid/ask price (fields b, a). -/

inductive Direction where
  | BUY
  | SELL
deriving DecidableEq, Repr

structure SpotMsg where
  b : ℚ
  Bq : ℚ
  a : ℚ
  Aq : ℚ
deriving DecidableEq, Repr

structure PendingCheck where
  direction : Direction
  deadline : ℤ
  basePrice : ℚ
deriving DecidableEq, Repr

/-- Which send site of the spot handler produced a payload: the standard
price tick logic (lines 103-111) or a synthetic fake-price firing
(lines 128-151). -/
inductive EmitKind where
  | normal
  | synthetic
deriving DecidableEq, Repr

/-- A payload as serialized by `sendToInternalClient`: price `p` and
whether the shared `payload_to_send` object carried `f: true` at the
moment of the send. -/
structure Emission where
  kind : EmitKind
  p : ℚ
  fFlag : Bool
deriving DecidableEq, Repr

structure ListenerState where
  last_sent_price : Option ℚ
  latestSpotData : Option SpotMsg
  last_fake_buy_price_sent : Option ℚ
  last_fake_sell_price_sent : Option ℚ
  lastFuturesTick : Option (ℚ × ℚ)
  pendingImbalanceCheck : Option PendingCheck
  payloadF : Bool
deriving DecidableEq, Repr

/-- State on listener start / spot reconnect (lines 52-63 and 87-94). -/
def initialListenerState : ListenerState :=
  { last_sent_price := none
    latestSpotData := none
    last_fake_buy_price_sent := none
    last_fake_sell_price_sent := none
    lastFuturesTick := none
    pendingImbalanceCheck := none
    payloadF := false }

/-- Section "1. Standard Price Tick Logic" of the spot handler
(lines 103-111): the per-source deadband on the best bid price. A send
serializes the shared payload object with its current `f` status. -/
def normalTickStep (msg : SpotMsg) (s : ListenerState) :
    ListenerState × List Emission :=
  if shouldSendPrice MINIMUM_TICK_SIZE s.last_sent_price msg.b then
    ({ s with last_sent_price := some msg.b },
      [⟨EmitKind.normal, msg.b, s.payloadF⟩])
  else (s, ([] : List Emission))

/-- Section "2. Imbalance Check Logic" of the spot handler
(lines 113-152): if a check is pending, test expiry, guard the zero
denominator, and fire the synthetic price on a threshold crossing. `now`
is `Date.now()` at the deadline comparison. A synthetic send sets
`payload_to_send.f = true`, sends, then deletes the field. -/
def pendingCheckStep (now : ℤ) (msg : SpotMsg) (s : ListenerState) :
    ListenerState × List Emission :=
  match s.pendingImbalanceCheck with
  | none => (s, [])
  | some pc =>
    if now > pc.deadline then
      ({ s with pendingImbalanceCheck := none }, [])
    else
      let totalQty := msg.Bq + msg.Aq
      if totalQty = 0 then (s, [])
      else
        let spotImbalance := msg.Bq / totalQty
        if pc.direction = Direction.BUY ∧
            IMBALANCE_THRESHOLD_UPPER ≤ spotImbalance then
          let fakePrice := pc.basePrice + FAKE_PRICE_OFFSET
          if some fakePrice ≠ s.last_fake_buy_price_sent then
            ({ s with pendingImbalanceCheck := none
                      last_fake_buy_price_sent := some fakePrice
                      payloadF := false },
              [⟨EmitKind.synthetic, fakePrice, true⟩])
          else ({ s with pendingImbalanceCheck := none }, [])
        else if pc.direction = Direction.SELL ∧
            spotImbalance ≤ IMBALANCE_THRESHOLD_LOWER then
          let fakePrice := pc.basePrice - FAKE_PRICE_OFFSET
          if some fakePrice ≠ s.last_fake_sell_price_sent then
            ({ s with pendingImbalanceCheck := none
                      last_fake_sell_price_sent := some fakePrice
                      payloadF := false },
              [⟨EmitKind.synthetic, fakePrice, true⟩])
          else ({ s with pendingImbalanceCheck := none }, [])
        else (s, [])

/-- Spot bookTicker message handler (lines 96-154): update
`latestSpotData`, run the standard price-tick deadband, then the pending
imbalance-check logic. -/
def processSpotMsg (now : ℤ) (msg : SpotMsg) (s : ListenerState) :
    ListenerState × List Emission :=
  let s0 := { s with latestSpotData := some msg }
  let r1 := normalTickStep msg s0
  let r2 := pendingCheckStep now msg r1.1
  (r2.1, r1.2 ++ r2.2)

/-- Futures bookTicker message handler (lines 171-213): classify the tick
against `lastFuturesTick` and, on a signal with valid spot data, open a
pending imbalance check. It sends nothing to the internal receiver. -/
def processFuturesMsg (now : ℤ) (fb fa : ℚ) (s : ListenerState) :
    ListenerState × List Emission :=
  match s.lastFuturesTick with
  | none => ({ s with lastFuturesTick := some (fb, fa) }, [])
  | some prev =>
    let s :=
      if fb > prev.1 then
        match s.latestSpotData with
        | some spot =>
          let pc := PendingCheck.mk Direction.BUY (now + IMBALANCE_WINDOW_MS) spot.b
          { s with pendingImbalanceCheck := some pc }
        | none => s
      else if fa < prev.2 then
        match s.latestSpotData with
        | some spot =>
          let pc := PendingCheck.mk Direction.SELL (now + IMBALANCE_WINDOW_MS) spot.a
          { s with pendingImbalanceCheck := some pc }
        | none => s
      else s
    ({ s with lastFuturesTick := some (fb, fa) }, [])

/-- A run of the spot message handler over a sequence of timestamped spot
messages, collecting everything sent. -/
def runSpot (s : ListenerState) : List (ℤ × SpotMsg) → ListenerState × List Emission
  | [] => (s, [])
  | (t, m) :: rest =>
    let r := processSpotMsg t m s
    let r2 := runSpot r.1 rest
    (r2.1, r.2 ++ r2.2)

/-- Synthetic payloads of an emission list. -/
def syntheticOut (l : List Emission) : List Emission :=
  l.filter (fun e => e.kind = EmitKind.synthetic)

/-- The fake price a pending check would fire at. -/
def fakePriceOf (pc : PendingCheck) : ℚ :=
  match pc.direction with
  | Direction.BUY => pc.basePrice + FAKE_PRICE_OFFSET
  | Direction.SELL => pc.basePrice - FAKE_PRICE_OFFSET

/-- The per-direction last-fired-price register a firing is checked
against. -/
def lastFakeOf (s : ListenerState) (d : Direction) : Option ℚ :=
  match d with
  | Direction.BUY => s.last_fake_buy_price_sent
  | Direction.SELL => s.last_fake_sell_price_sent

/-- Whether a spot message's imbalance qualifies for a pending check's
direction (denominator nonzero and threshold crossed). -/
def qualifies (pc : PendingCheck) (msg : SpotMsg) : Prop :=
  msg.Bq + msg.Aq ≠ 0 ∧
  (match pc.direction with
   | Direction.BUY =>
       IMBALANCE_THRESHOLD_UPPER ≤ msg.Bq / (msg.Bq + msg.Aq)
   | Direction.SELL =>
       msg.Bq / (msg.Bq + msg.Aq) ≤ IMBALANCE_THRESHOLD_LOWER)

instance (pc : PendingCheck) (msg : SpotMsg) : Decidable (qualifies pc msg) := by
  unfold qualifies
  cases pc.direction <;> exact inferInstance

/-- State after a synthetic firing of pending check `pc`: the check is
cleared, the per-direction last-fired register records the fake price, and
the `f` field has been deleted from the payload object. -/
def fireState (s : ListenerState) (pc : PendingCheck) : ListenerState :=
  match pc.direction with
  | Direction.BUY =>
    { s with pendingImbalanceCheck := none
             last_fake_buy_price_sent := some (fakePriceOf pc)
             payloadF := false }
  | Direction.SELL =>
    { s with pendingImbalanceCheck := none
             last_fake_sell_price_sent := some (fakePriceOf pc)
             payloadF := false }

/-! ### Aggregator (src/data_receiver_server.js, bybit_listener_optimized
section, lines 158-217 and the per-exchange handlers at 237-352)

`latest_prices = { bybit, okx, binance }`; each exchange message handler
stores the parsed trade price under its key and calls
`calculateAndSendAverage`; each close handler sets its key to null. -/

inductive AggSource where
  | bybit
  | okx
  | binance
deriving DecidableEq, Repr

structure AggState where
  bybit : Option ℚ
  okx : Option ℚ
  binance : Option ℚ
  last_sent_price : Option ℚ
deriving DecidableEq, Repr

def initialAggState : AggState :=
  { bybit := none, okx := none, binance := none, last_sent_price := none }

def getSource (s : AggState) (src : AggSource) : Option ℚ :=
  match src with
  | AggSource.bybit => s.bybit
  | AggSource.okx => s.okx
  | AggSource.binance => s.binance

def setSource (src : AggSource) (v : Option ℚ) (s : AggState) : AggState :=
  match src with
  | AggSource.bybit => { s with bybit := v }
  | AggSource.okx => { s with okx := v }
  | AggSource.binance => { s with binance := v }

/-- `Object.values(latest_prices).filter(p => p !== null)`, in the object's
insertion order. -/
def validPrices (s : AggState) : List ℚ :=
  [s.bybit, s.okx, s.binance].filterMap id

/-- Lines 204-217: average the present prices and send if the deadband on
`last_sent_price` passes; do nothing when no source is present. -/
def calculateAndSendAverage (s : AggState) : AggState × List ℚ :=
  let valid := validPrices s
  if valid = [] then (s, [])
  else
    let average := valid.sum / (valid.length : ℚ)
    if shouldSendPrice AVERAGE_PRICE_CHANGE_THRESHOLD s.last_sent_price average then
      ({ s with last_sent_price := some average }, [average])
    else (s, [])

/-- An exchange message handler's accepted update: store the price, then
recompute (e.g. lines 237-250 for bybit). -/
def onTradeMessage (src : AggSource) (p : ℚ) (s : AggState) :
    AggState × List ℚ :=
  calculateAndSendAverage (setSource src (some p) s)

/-- An exchange close handler (e.g. lines 252-256): the source's entry is
nulled so it stops contributing. -/
def onSourceClose (src : AggSource) (s : AggState) : AggState :=
  setSource src none s

/-! ### Broadcast Hub (src/data_receiver_server.js lines 19-92)

Every `/public` connection is implicitly subscribed to the single broadcast
topic; `/internal` messages are published once to the topic; a
`set_mode`/`semi_auto` request on `/public` is answered by a direct
`ws.send` of `{type:'S', p:lastPrice}` to the requesting socket only, with
`lastPrice` fetched from an external ticker (none models a NaN parse). -/

structure HubRequest where
  event : String
  mode : String
deriving DecidableEq, Repr

inductive HubMsg where
  | relayed (raw : String)
  | instantPrice (p : ℚ)
deriving DecidableEq, Repr

structure Hub where
  subscribers : List ℕ
  logs : ℕ → List HubMsg

/-- `open` handler of `/public` (lines 26-35): connecting is the entire
subscription. -/
def hubConnect (c : ℕ) (h : Hub) : Hub :=
  { h with subscribers := c :: h.subscribers }

/-- `app.publish` of one message to the broadcast topic: every currently
subscribed client receives it. -/
def hubPublish (m : HubMsg) (h : Hub) : Hub :=
  { h with logs := fun c =>
      if c ∈ h.subscribers then h.logs c ++ [m] else h.logs c }

/-- `/internal` message handler (lines 69-74): relay the raw message once
to the topic. -/
def internalMessageHandler (raw : String) (h : Hub) : Hub :=
  hubPublish (HubMsg.relayed raw) h

/-- `/public` message handler (lines 36-58): on `set_mode`/`semi_auto`,
reply with the instantaneous price to the requesting client only (a direct
`ws.send`); any other request, or a NaN price, does nothing. The second
component is the list of messages this handler publishes to the broadcast
topic. -/
def publicMessageHandler (c : ℕ) (req : HubRequest) (lastPrice : Option ℚ)
    (h : Hub) : Hub × List HubMsg :=
  if req.event = "set_mode" ∧ req.mode = "semi_auto" then
    match lastPrice with
    | some p =>
      ({ h with logs := fun c' =>
          if c' = c then h.logs c' ++ [HubMsg.instantPrice p]
          else h.logs c' }, [])
    | none => (h, [])
  else (h, [])

/-! ### Bybit futures listener (src/unnamed/part_002)

The orderbook message handler (lines 122-141) only overwrites
`price_buffer` with the latest best-bid price; the scheduler
(lines 159-174, every SEND_INTERVAL_MS) sends the buffered price when the
deadband against `last_sent_trade_price` passes. -/

structure BybitListenerState where
  last_sent_trade_price : Option ℚ
  price_buffer : Option ℚ
deriving DecidableEq, Repr

def initialBybitState : BybitListenerState :=
  { last_sent_trade_price := none, price_buffer := none }

/-- Orderbook message handler (lines 122-141): buffer the parsed best-bid
price; nothing is sent from here. -/
def bybitOnOrderbookMsg (p : ℚ) (s : BybitListenerState) :
    BybitListenerState × List ℚ :=
  ({ s with price_buffer := some p }, [])

/-- One tick of `startSendingScheduler` (lines 159-174). -/
def bybitSchedulerTick (s : BybitListenerState) :
    BybitListenerState × List ℚ :=
  match s.price_buffer with
  | none => (s, [])
  | some buf =>
    if shouldSendPrice MINIMUM_TICK_SIZE_BYBIT s.last_sent_trade_price buf then
      ({ s with last_sent_trade_price := some buf }, [buf])
    else (s, [])

/-! ### Change Filter lemmas -/

lemma filterRun_chain (tick : ℚ) (x : ℚ) (ps : List ℚ) :
    List.Chain (fun a b => tick ≤ |b - a|) x (filterRun tick (some x) ps) := by
  induction ps generalizing x with
  | nil => simp [filterRun]
  | cons p ps ih =>
    by_cases h : shouldSendPrice tick (some x) p
    · have hle : tick ≤ |p - x| := by
        simpa [shouldSendPrice] using h
      simp only [filterRun, h, if_true]
      exact List.Chain.cons hle (ih p)
    · simp only [filterRun, h, if_false, Bool.false_eq_true]
      exact ih x

lemma filterRun_none_cons (tick p : ℚ) (ps : List ℚ) :
    filterRun tick none (p :: ps) = p :: filterRun tick (some p) ps := by
  simp [filterRun, shouldSendPrice]

/-! ### Imbalance Trigger Detector lemmas -/

lemma normalTickStep_pending (msg : SpotMsg) (s : ListenerState) :
    (normalTickStep msg s).1.pendingImbalanceCheck =
      s.pendingImbalanceCheck := by
  unfold normalTickStep; split <;> rfl

lemma normalTickStep_fakeBuy (msg : SpotMsg) (s : ListenerState) :
    (normalTickStep msg s).1.last_fake_buy_price_sent =
      s.last_fake_buy_price_sent := by
  unfold normalTickStep; split <;> rfl

lemma normalTickStep_fakeSell (msg : SpotMsg) (s : ListenerState) :
    (normalTickStep msg s).1.last_fake_sell_price_sent =
      s.last_fake_sell_price_sent := by
  unfold normalTickStep; split <;> rfl

lemma normalTickStep_payloadF (msg : SpotMsg) (s : ListenerState) :
    (normalTickStep msg s).1.payloadF = s.payloadF := by
  unfold normalTickStep; split <;> rfl

lemma normalTickStep_synthetic (msg : SpotMsg) (s : ListenerState) :
    syntheticOut (normalTickStep msg s).2 = [] := by
  unfold normalTickStep; split <;> rfl

lemma normalTickStep_shape (msg : SpotMsg) (s : ListenerState) :
    (normalTickStep msg s).2 = [] ∨
    (normalTickStep msg s).2 = [⟨EmitKind.normal, msg.b, s.payloadF⟩] := by
  unfold normalTickStep; split
  · exact Or.inr rfl
  · exact Or.inl rfl

lemma syntheticOut_append (l₁ l₂ : List Emission) :
    syntheticOut (l₁ ++ l₂) = syntheticOut l₁ ++ syntheticOut l₂ := by
  simp [syntheticOut]

lemma pendingCheckStep_all_synthetic (now : ℤ) (msg : SpotMsg)
    (s : ListenerState) :
    syntheticOut (pendingCheckStep now msg s).2 =
      (pendingCheckStep now msg s).2 := by
  unfold pendingCheckStep
  rcases s.pendingImbalanceCheck with _ | pc
  · rfl
  · dsimp only
    split_ifs <;> simp [syntheticOut]

lemma pendingCheckStep_shape (now : ℤ) (msg : SpotMsg) (s : ListenerState) :
    ((pendingCheckStep now msg s).2 = [] ∧
      (pendingCheckStep now msg s).1.payloadF = s.payloadF) ∨
    (∃ q, (pendingCheckStep now msg s).2 = [⟨EmitKind.synthetic, q, true⟩] ∧
      (pendingCheckStep now msg s).1.payloadF = false) := by
  unfold pendingCheckStep
  rcases s.pendingImbalanceCheck with _ | pc
  · exact Or.inl ⟨rfl, rfl⟩
  · dsimp only
    split_ifs <;>
      first
        | exact Or.inl ⟨rfl, rfl⟩
        | exact Or.inr ⟨_, rfl, rfl⟩

lemma pendingCheckStep_none (now : ℤ) (msg : SpotMsg) (s : ListenerState)
    (h : s.pendingImbalanceCheck = none) :
    pendingCheckStep now msg s = (s, []) := by
  unfold pendingCheckStep
  rw [h]

lemma pendingCheckStep_expired (now : ℤ) (msg : SpotMsg)
    (s : ListenerState) (pc : PendingCheck)
    (hpc : s.pendingImbalanceCheck = some pc) (hdl : now > pc.deadline) :
    pendingCheckStep now msg s =
      ({ s with pendingImbalanceCheck := none }, []) := by
  unfold pendingCheckStep
  rw [hpc]
  simp [hdl]

lemma pendingCheckStep_zeroQty (now : ℤ) (msg : SpotMsg)
    (s : ListenerState) (pc : PendingCheck)
    (hpc : s.pendingImbalanceCheck = some pc) (hdl : ¬ now > pc.deadline)
    (hq : msg.Bq + msg.Aq = 0) :
    pendingCheckStep now msg s = (s, []) := by
  unfold pendingCheckStep
  rw [hpc]
  simp [hdl, hq]

lemma pendingCheckStep_fire (now : ℤ) (msg : SpotMsg) (s : ListenerState)
    (pc : PendingCheck) (hpc : s.pendingImbalanceCheck = some pc)
    (hdl : ¬ now > pc.deadline) (hq : qualifies pc msg) :
    pendingCheckStep now msg s =
      if some (fakePriceOf pc) ≠ lastFakeOf s pc.direction then
        (fireState s pc, [⟨EmitKind.synthetic, fakePriceOf pc, true⟩])
      else ({ s with pendingImbalanceCheck := none }, []) := by
  obtain ⟨hden, hthr⟩ := hq
  unfold pendingCheckStep
  rw [hpc]
  cases hd : pc.direction with
  | BUY =>
    rw [hd] at hthr
    simp only [hd] at hthr ⊢
    simp [hdl, hden, hthr, fakePriceOf, lastFakeOf, fireState, hd]
  | SELL =>
    rw [hd] at hthr
    simp only [hd] at hthr ⊢
    simp [hdl, hden, hthr, fakePriceOf, lastFakeOf, fireState, hd]

lemma processSpotMsg_decomp (now : ℤ) (msg : SpotMsg) (s : ListenerState) :
    processSpotMsg now msg s =
      ((pendingCheckStep now msg
          (normalTickStep msg { s with latestSpotData := some msg }).1).1,
        (normalTickStep msg { s with latestSpotData := some msg }).2 ++
        (pendingCheckStep now msg
          (normalTickStep msg { s with latestSpotData := some msg }).1).2) :=
  rfl

lemma processSpotMsg_synthetic (now : ℤ) (msg : SpotMsg)
    (s : ListenerState) :
    syntheticOut (processSpotMsg now msg s).2 =
      (pendingCheckStep now msg
        (normalTickStep msg { s with latestSpotData := some msg }).1).2 := by
  rw [processSpotMsg_decomp]
  simp only [syntheticOut_append, normalTickStep_synthetic,
    pendingCheckStep_all_synthetic, List.nil_append]

lemma processSpotMsg_pending_none (now : ℤ) (msg : SpotMsg)
    (s : ListenerState) (h : s.pendingImbalanceCheck = none) :
    syntheticOut (processSpotMsg now msg s).2 = [] := by
  rw [processSpotMsg_synthetic,
    pendingCheckStep_none now msg _ (by rw [normalTickStep_pending]; exact h)]

lemma fireState_pending (s : ListenerState) (pc : PendingCheck) :
    (fireState s pc).pendingImbalanceCheck = none := by
  unfold fireState; cases pc.direction <;> rfl

lemma lastFakeOf_normalTick (msg : SpotMsg) (s : ListenerState)
    (d : Direction) :
    lastFakeOf (normalTickStep msg s).1 d = lastFakeOf s d := by
  cases d <;>
    simp [lastFakeOf, normalTickStep_fakeBuy, normalTickStep_fakeSell]

lemma lastFakeOf_latestSpot (msg : SpotMsg) (s : ListenerState)
    (d : Direction) :
    lastFakeOf { s with latestSpotData := some msg } d = lastFakeOf s d := by
  cases d <;> rfl

lemma processSpotMsg_fire (now : ℤ) (msg : SpotMsg) (s : ListenerState)
    (pc : PendingCheck) (hpc : s.pendingImbalanceCheck = some pc)
    (hdl : ¬ now > pc.deadline) (hq : qualifies pc msg) :
    (processSpotMsg now msg s).1.pendingImbalanceCheck = none ∧
    syntheticOut (processSpotMsg now msg s).2 =
      (if some (fakePriceOf pc) ≠ lastFakeOf s pc.direction then
        [⟨EmitKind.synthetic, fakePriceOf pc, true⟩]
      else []) := by
  have h1 : (normalTickStep msg
      { s with latestSpotData := some msg }).1.pendingImbalanceCheck =
      some pc := by
    rw [normalTickStep_pending]; exact hpc
  have hfire := pendingCheckStep_fire now msg
    (normalTickStep msg { s with latestSpotData := some msg }).1 pc h1 hdl hq
  have hfake : lastFakeOf
      (normalTickStep msg { s with latestSpotData := some msg }).1
      pc.direction = lastFakeOf s pc.direction := by
    rw [lastFakeOf_normalTick, lastFakeOf_latestSpot]
  constructor
  · rw [processSpotMsg_decomp]
    dsimp only
    rw [hfire]
    split
    · exact fireState_pending _ _
    · rfl
  · rw [processSpotMsg_synthetic, hfire, hfake]
    split <;> rfl

lemma processSpotMsg_marker_step (now : ℤ) (msg : SpotMsg)
    (s : ListenerState) (h : s.payloadF = false) :
    (∀ e ∈ (processSpotMsg now msg s).2,
      (e.fFlag = true ↔ e.kind = EmitKind.synthetic)) ∧
    (processSpotMsg now msg s).1.payloadF = false := by
  rw [processSpotMsg_decomp]
  have h0 : ({ s with latestSpotData := some msg } : ListenerState).payloadF
      = false := h
  have h1 : (normalTickStep msg
      { s with latestSpotData := some msg }).1.payloadF = false := by
    rw [normalTickStep_payloadF]; exact h0
  constructor
  · intro e he
    rcases List.mem_append.mp he with hmem | hmem
    · rcases normalTickStep_shape msg { s with latestSpotData := some msg }
        with hsh | hsh
      · rw [hsh] at hmem; cases hmem
      · rw [hsh] at hmem
        rcases List.mem_singleton.mp hmem with rfl
        rw [h0]
        simp
    · rcases pendingCheckStep_shape now msg
        (normalTickStep msg { s with latestSpotData := some msg }).1
        with ⟨hsh, _⟩ | ⟨q, hsh, _⟩
      · rw [hsh] at hmem; cases hmem
      · rw [hsh] at hmem
        rcases List.mem_singleton.mp hmem with rfl
        simp
  · rcases pendingCheckStep_shape now msg
      (normalTickStep msg { s with latestSpotData := some msg }).1
      with ⟨_, hpf⟩ | ⟨q, _, hpf⟩
    · dsimp only; rw [hpf]; exact h1
    · dsimp only; rw [hpf]

/-! ### Claim theorems -/

/-- C1, counterexample to the claim as stated: with a pending BUY trigger
(deadline 50, basePrice 50000) and `last_fake_buy_price_sent = 50001`, a
qualifying reference update (imbalance 9/10 ≥ 83/100) arriving at t = 10,
before the deadline, fires ZERO synthetic events — not exactly one — while
still clearing the pending trigger: the candidate price 50001 equals the
last fired BUY price, so the send is suppressed. -/
theorem single_shot_suppressed_counterexample :
    (10 : ℤ) ≤ (50 : ℤ) ∧
    qualifies ⟨Direction.BUY, 50, 50000⟩ ⟨50000, 9, 50001, 1⟩ ∧
    syntheticOut (processSpotMsg 10 ⟨50000, 9, 50001, 1⟩
      { initialListenerState with
          pendingImbalanceCheck := some ⟨Direction.BUY, 50, 50000⟩
          last_fake_buy_price_sent := some 50001 }).2 = [] ∧
    (processSpotMsg 10 ⟨50000, 9, 50001, 1⟩
      { initialListenerState with
          pendingImbalanceCheck := some ⟨Direction.BUY, 50, 50000⟩
          last_fake_buy_price_sent := some 50001 }).1.pendingImbalanceCheck
      = none := by
  refine ⟨by norm_num, by norm_num [qualifies, IMBALANCE_THRESHOLD_UPPER], ?_, ?_⟩ <;>
    norm_num [processSpotMsg, normalTickStep, pendingCheckStep, syntheticOut,
      shouldSendPrice, initialListenerState, MINIMUM_TICK_SIZE,
      IMBALANCE_THRESHOLD_UPPER, IMBALANCE_THRESHOLD_LOWER, FAKE_PRICE_OFFSET,
      List.filter, show (decide (EmitKind.normal = EmitKind.synthetic)) = false from rfl]

/-- C1 (amended): for every pending trigger, a qualifying reference-feed
update arriving at or before the deadline clears the pending trigger and
fires exactly one synthetic event priced basePrice + offset (BUY) or
basePrice - offset (SELL) — unless that price equals the last fired
synthetic price of the same direction, in which case zero events are
emitted (duplicate suppression); in either case at most one synthetic
event is emitted, any later update processed from the resulting state
produces no further synthetic event, and a trigger opened afterward is
governed by the same rule independently of the consumed one. -/
theorem imbalance_window_single_shot (now : ℤ) (msg : SpotMsg)
    (s : ListenerState) (pc : PendingCheck)
    (hpc : s.pendingImbalanceCheck = some pc)
    (hdl : now ≤ pc.deadline) (hq : qualifies pc msg) :
    (processSpotMsg now msg s).1.pendingImbalanceCheck = none ∧
    syntheticOut (processSpotMsg now msg s).2 =
      (if some (fakePriceOf pc) ≠ lastFakeOf s pc.direction then
        [⟨EmitKind.synthetic, fakePriceOf pc, true⟩]
      else []) ∧
    (∀ now' msg', syntheticOut
      (processSpotMsg now' msg' (processSpotMsg now msg s).1).2 = []) := by
  obtain ⟨h1, h2⟩ :=
    processSpotMsg_fire now msg s pc hpc (not_lt.mpr hdl) hq
  exact ⟨h1, h2, fun now' msg' =>
    processSpotMsg_pending_none now' msg' _ h1⟩

/-- Witness for C1 at the spec's example: pending BUY trigger with
deadline 50 and basePrice 50000, qualifying update (imbalance 9/10) at
t = 10 from the initial fake-price registers. -/
theorem imbalance_window_single_shot_witness :
    ({ initialListenerState with
        pendingImbalanceCheck := some ⟨Direction.BUY, 50, 50000⟩
        } : ListenerState).pendingImbalanceCheck =
      some ⟨Direction.BUY, 50, 50000⟩ ∧
    (10 : ℤ) ≤ (50 : ℤ) ∧
    qualifies ⟨Direction.BUY, 50, 50000⟩ ⟨50000, 9, 50001, 1⟩ ∧
    ((processSpotMsg 10 ⟨50000, 9, 50001, 1⟩
        { initialListenerState with
            pendingImbalanceCheck := some ⟨Direction.BUY, 50, 50000⟩
            }).1.pendingImbalanceCheck = none ∧
      syntheticOut (processSpotMsg 10 ⟨50000, 9, 50001, 1⟩
        { initialListenerState with
            pendingImbalanceCheck := some ⟨Direction.BUY, 50, 50000⟩
            }).2 =
        (if some (fakePriceOf ⟨Direction.BUY, 50, 50000⟩) ≠
            lastFakeOf { initialListenerState with
              pendingImbalanceCheck := some ⟨Direction.BUY, 50, 50000⟩
              } (PendingCheck.mk Direction.BUY 50 50000).direction then
          [⟨EmitKind.synthetic, fakePriceOf ⟨Direction.BUY, 50, 50000⟩, true⟩]
        else []) ∧
      (∀ now' msg', syntheticOut
        (processSpotMsg now' msg' (processSpotMsg 10 ⟨50000, 9, 50001, 1⟩
          { initialListenerState with
              pendingImbalanceCheck := some ⟨Direction.BUY, 50, 50000⟩
              }).1).2 = [])) :=
  ⟨rfl, by norm_num, by norm_num [qualifies, IMBALANCE_THRESHOLD_UPPER],
    imbalance_window_single_shot 10 ⟨50000, 9, 50001, 1⟩
      { initialListenerState with
          pendingImbalanceCheck := some ⟨Direction.BUY, 50, 50000⟩ }
      ⟨Direction.BUY, 50, 50000⟩ rfl (by norm_num)
      (by norm_num [qualifies, IMBALANCE_THRESHOLD_UPPER])⟩

/-- C2: for every sequence of raw prices fed to a per-source change filter
from the initial state, a price is emitted iff `last_sent_price` is none or
differs from it by at least the tick size; `last_sent_price` becomes the
emitted price on emit and is unchanged on suppression; the first price of a
nonempty sequence is always emitted, and consecutive emitted prices differ
by at least the tick size in absolute value. -/
theorem changeFilter_deadband (tick : ℚ) (last p : ℚ) (ps : List ℚ)
    (hps : ps ≠ []) :
    (shouldSendPrice tick none p = true) ∧
    (shouldSendPrice tick (some last) p = true ↔ tick ≤ |p - last|) ∧
    (filterStep tick (some last) p =
      if tick ≤ |p - last| then (some p, true) else (some last, false)) ∧
    (filterRun tick none ps).head? = ps.head? ∧
    List.Chain' (fun a b => tick ≤ |b - a|) (filterRun tick none ps) := by
  refine ⟨rfl, by simp [shouldSendPrice], ?_, ?_, ?_⟩
  · by_cases h : tick ≤ |p - last| <;>
      simp [filterStep, shouldSendPrice, h]
  · obtain ⟨q, qs, rfl⟩ := List.exists_cons_of_ne_nil hps
    rw [filterRun_none_cons]
    simp
  · obtain ⟨q, qs, rfl⟩ := List.exists_cons_of_ne_nil hps
    rw [filterRun_none_cons]
    show List.Chain (fun a b => tick ≤ |b - a|) q (filterRun tick (some q) qs)
    exact filterRun_chain tick q qs

/-- Witness for C2 at tick 2/10, last 5, p 6, prices [1, 11/10, 2]. -/
theorem changeFilter_deadband_witness :
    ([1, 11/10, 2] : List ℚ) ≠ [] ∧
    ((shouldSendPrice (2/10) none 6 = true) ∧
    (shouldSendPrice (2/10) (some 5) 6 = true ↔ (2/10 : ℚ) ≤ |6 - 5|) ∧
    (filterStep (2/10) (some 5) 6 =
      if (2/10 : ℚ) ≤ |6 - 5| then (some 6, true) else (some 5, false)) ∧
    (filterRun (2/10) none [1, 11/10, 2]).head? = ([1, 11/10, 2] : List ℚ).head? ∧
    List.Chain' (fun a b => (2/10 : ℚ) ≤ |b - a|)
      (filterRun (2/10) none [1, 11/10, 2])) :=
  ⟨by decide, changeFilter_deadband (2/10) 5 6 [1, 11/10, 2] (by decide)⟩

/-- C4: for every trigger-feed update with a recorded previous tick and
valid reference-feed data, if the new bid rose the signal is BUY; else if
the new ask fell the signal is SELL; otherwise no signal. On a signal a
pending trigger is opened with the classified direction, basePrice read
from the reference feed's current best bid (BUY) or best ask (SELL), and
deadline now + window, overwriting any existing pending trigger; the
handler itself sends nothing (the replaced trigger is discarded without
firing), and the previous-tick register is updated to the new pair. -/
theorem futures_trigger_classification (now : ℤ) (fb fa pb pa : ℚ)
    (spot : SpotMsg) (s : ListenerState)
    (hprev : s.lastFuturesTick = some (pb, pa))
    (hspot : s.latestSpotData = some spot) :
    (processFuturesMsg now fb fa s).2 = [] ∧
    (processFuturesMsg now fb fa s).1.lastFuturesTick = some (fb, fa) ∧
    (processFuturesMsg now fb fa s).1.pendingImbalanceCheck =
      (if fb > pb then
        some ⟨Direction.BUY, now + IMBALANCE_WINDOW_MS, spot.b⟩
      else if fa < pa then
        some ⟨Direction.SELL, now + IMBALANCE_WINDOW_MS, spot.a⟩
      else s.pendingImbalanceCheck) := by
  unfold processFuturesMsg
  rw [hprev]
  refine ⟨rfl, rfl, ?_⟩
  dsimp only
  split_ifs with h1 h2 <;> first | rw [hspot] | rfl

/-- Witness for C4: previous tick (50, 51), spot ⟨49000, 1, 49001, 2⟩, new
futures pair (101/2, 51) — an UP-tick opening a BUY trigger at the spot
bid. -/
theorem futures_trigger_classification_witness :
    ({ initialListenerState with
        lastFuturesTick := some ((50 : ℚ), (51 : ℚ))
        latestSpotData := some ⟨49000, 1, 49001, 2⟩ } :
        ListenerState).lastFuturesTick = some ((50 : ℚ), (51 : ℚ)) ∧
    ({ initialListenerState with
        lastFuturesTick := some ((50 : ℚ), (51 : ℚ))
        latestSpotData := some ⟨49000, 1, 49001, 2⟩ } :
        ListenerState).latestSpotData = some ⟨49000, 1, 49001, 2⟩ ∧
    ((processFuturesMsg 7 (101/2) 51
        { initialListenerState with
            lastFuturesTick := some ((50 : ℚ), (51 : ℚ))
            latestSpotData := some ⟨49000, 1, 49001, 2⟩ }).2 = [] ∧
      (processFuturesMsg 7 (101/2) 51
        { initialListenerState with
            lastFuturesTick := some ((50 : ℚ), (51 : ℚ))
            latestSpotData := some ⟨49000, 1, 49001, 2⟩ }).1.lastFuturesTick =
          some ((101/2 : ℚ), (51 : ℚ)) ∧
      (processFuturesMsg 7 (101/2) 51
        { initialListenerState with
            lastFuturesTick := some ((50 : ℚ), (51 : ℚ))
            latestSpotData := some ⟨49000, 1, 49001, 2⟩
            }).1.pendingImbalanceCheck =
        (if (101/2 : ℚ) > 50 then
          some ⟨Direction.BUY, 7 + IMBALANCE_WINDOW_MS,
            (SpotMsg.mk 49000 1 49001 2).b⟩
        else if (51 : ℚ) < 51 then
          some ⟨Direction.SELL, 7 + IMBALANCE_WINDOW_MS,
            (SpotMsg.mk 49000 1 49001 2).a⟩
        else ({ initialListenerState with
            lastFuturesTick := some ((50 : ℚ), (51 : ℚ))
            latestSpotData := some ⟨49000, 1, 49001, 2⟩ } :
            ListenerState).pendingImbalanceCheck)) :=
  ⟨rfl, rfl,
    futures_trigger_classification 7 (101/2) 51 50 51 ⟨49000, 1, 49001, 2⟩
      { initialListenerState with
          lastFuturesTick := some ((50 : ℚ), (51 : ℚ))
          latestSpotData := some ⟨49000, 1, 49001, 2⟩ } rfl rfl⟩

/-- C5: a reference update processed after the pending trigger's deadline
(now > deadline) clears the trigger and fires nothing, whatever the
update's imbalance, and leaves both last-fired synthetic registers
untouched. -/
theorem window_expiry_no_fire (now : ℤ) (msg : SpotMsg)
    (s : ListenerState) (pc : PendingCheck)
    (hpc : s.pendingImbalanceCheck = some pc) (hdl : now > pc.deadline) :
    (processSpotMsg now msg s).1.pendingImbalanceCheck = none ∧
    syntheticOut (processSpotMsg now msg s).2 = [] ∧
    (processSpotMsg now msg s).1.last_fake_buy_price_sent =
      s.last_fake_buy_price_sent ∧
    (processSpotMsg now msg s).1.last_fake_sell_price_sent =
      s.last_fake_sell_price_sent := by
  have h1 : (normalTickStep msg
      { s with latestSpotData := some msg }).1.pendingImbalanceCheck =
      some pc := by
    rw [normalTickStep_pending]; exact hpc
  have hexp := pendingCheckStep_expired now msg _ pc h1 hdl
  refine ⟨?_, ?_, ?_, ?_⟩
  · rw [processSpotMsg_decomp]; dsimp only; rw [hexp]
  · rw [processSpotMsg_synthetic, hexp]
  · rw [processSpotMsg_decomp]; dsimp only; rw [hexp]
    exact normalTickStep_fakeBuy msg _
  · rw [processSpotMsg_decomp]; dsimp only; rw [hexp]
    exact normalTickStep_fakeSell msg _

/-- Witness for C5 at the spec's example: deadline 50, update at t = 60
with qualifying imbalance 9/10 — cleared, nothing fired. -/
theorem window_expiry_no_fire_witness :
    ({ initialListenerState with
        pendingImbalanceCheck := some ⟨Direction.BUY, 50, 50000⟩
        } : ListenerState).pendingImbalanceCheck =
      some ⟨Direction.BUY, 50, 50000⟩ ∧
    (60 : ℤ) > (50 : ℤ) ∧
    qualifies ⟨Direction.BUY, 50, 50000⟩ ⟨50000, 9, 50001, 1⟩ ∧
    ((processSpotMsg 60 ⟨50000, 9, 50001, 1⟩
        { initialListenerState with
            pendingImbalanceCheck := some ⟨Direction.BUY, 50, 50000⟩
            }).1.pendingImbalanceCheck = none ∧
      syntheticOut (processSpotMsg 60 ⟨50000, 9, 50001, 1⟩
        { initialListenerState with
            pendingImbalanceCheck := some ⟨Direction.BUY, 50, 50000⟩
            }).2 = [] ∧
      (processSpotMsg 60 ⟨50000, 9, 50001, 1⟩
        { initialListenerState with
            pendingImbalanceCheck := some ⟨Direction.BUY, 50, 50000⟩
            }).1.last_fake_buy_price_sent =
        ({ initialListenerState with
            pendingImbalanceCheck := some ⟨Direction.BUY, 50, 50000⟩
            } : ListenerState).last_fake_buy_price_sent ∧
      (processSpotMsg 60 ⟨50000, 9, 50001, 1⟩
        { initialListenerState with
            pendingImbalanceCheck := some ⟨Direction.BUY, 50, 50000⟩
            }).1.last_fake_sell_price_sent =
        ({ initialListenerState with
            pendingImbalanceCheck := some ⟨Direction.BUY, 50, 50000⟩
            } : ListenerState).last_fake_sell_price_sent) :=
  ⟨rfl, by norm_num, by norm_num [qualifies, IMBALANCE_THRESHOLD_UPPER],
    window_expiry_no_fire 60 ⟨50000, 9, 50001, 1⟩
      { initialListenerState with
          pendingImbalanceCheck := some ⟨Direction.BUY, 50, 50000⟩ }
      ⟨Direction.BUY, 50, 50000⟩ rfl (by norm_num)⟩

/-- C6: a reference update with both quantities zero, processed in the
window, neither divides by zero (the guard returns before the division),
nor fires, nor clears the pending trigger, and leaves the last-fired
synthetic registers untouched. -/
theorem zero_denominator_no_fire (now : ℤ) (msg : SpotMsg)
    (s : ListenerState) (pc : PendingCheck)
    (hpc : s.pendingImbalanceCheck = some pc) (hdl : ¬ now > pc.deadline)
    (hB : msg.Bq = 0) (hA : msg.Aq = 0) :
    (processSpotMsg now msg s).1.pendingImbalanceCheck = some pc ∧
    syntheticOut (processSpotMsg now msg s).2 = [] ∧
    (processSpotMsg now msg s).1.last_fake_buy_price_sent =
      s.last_fake_buy_price_sent ∧
    (processSpotMsg now msg s).1.last_fake_sell_price_sent =
      s.last_fake_sell_price_sent := by
  have h1 : (normalTickStep msg
      { s with latestSpotData := some msg }).1.pendingImbalanceCheck =
      some pc := by
    rw [normalTickStep_pending]; exact hpc
  have hz := pendingCheckStep_zeroQty now msg _ pc h1 hdl
    (by rw [hB, hA]; norm_num)
  refine ⟨?_, ?_, ?_, ?_⟩
  · rw [processSpotMsg_decomp]; dsimp only; rw [hz]; exact h1
  · rw [processSpotMsg_synthetic, hz]
  · rw [processSpotMsg_decomp]; dsimp only; rw [hz]
    exact normalTickStep_fakeBuy msg _
  · rw [processSpotMsg_decomp]; dsimp only; rw [hz]
    exact normalTickStep_fakeSell msg _

/-- Witness for C6: pending BUY trigger, update ⟨50000, 0, 50001, 0⟩ at
t = 10 inside the window — trigger intact, nothing fired. -/
theorem zero_denominator_no_fire_witness :
    ({ initialListenerState with
        pendingImbalanceCheck := some ⟨Direction.BUY, 50, 50000⟩
        } : ListenerState).pendingImbalanceCheck =
      some ⟨Direction.BUY, 50, 50000⟩ ∧
    ¬ (10 : ℤ) > (50 : ℤ) ∧
    (SpotMsg.mk 50000 0 50001 0).Bq = 0 ∧
    (SpotMsg.mk 50000 0 50001 0).Aq = 0 ∧
    ((processSpotMsg 10 ⟨50000, 0, 50001, 0⟩
        { initialListenerState with
            pendingImbalanceCheck := some ⟨Direction.BUY, 50, 50000⟩
            }).1.pendingImbalanceCheck =
        some ⟨Direction.BUY, 50, 50000⟩ ∧
      syntheticOut (processSpotMsg 10 ⟨50000, 0, 50001, 0⟩
        { initialListenerState with
            pendingImbalanceCheck := some ⟨Direction.BUY, 50, 50000⟩
            }).2 = [] ∧
      (processSpotMsg 10 ⟨50000, 0, 50001, 0⟩
        { initialListenerState with
            pendingImbalanceCheck := some ⟨Direction.BUY, 50, 50000⟩
            }).1.last_fake_buy_price_sent =
        ({ initialListenerState with
            pendingImbalanceCheck := some ⟨Direction.BUY, 50, 50000⟩
            } : ListenerState).last_fake_buy_price_sent ∧
      (processSpotMsg 10 ⟨50000, 0, 50001, 0⟩
        { initialListenerState with
            pendingImbalanceCheck := some ⟨Direction.BUY, 50, 50000⟩
            }).1.last_fake_sell_price_sent =
        ({ initialListenerState with
            pendingImbalanceCheck := some ⟨Direction.BUY, 50, 50000⟩
            } : ListenerState).last_fake_sell_price_sent) :=
  ⟨rfl, by norm_num, rfl, rfl,
    zero_denominator_no_fire 10 ⟨50000, 0, 50001, 0⟩
      { initialListenerState with
          pendingImbalanceCheck := some ⟨Direction.BUY, 50, 50000⟩ }
      ⟨Direction.BUY, 50, 50000⟩ rfl (by norm_num) rfl rfl⟩

/-- C7, counterexample to the claim as stated: with
`last_fake_buy_price_sent = 50001` and a pending BUY trigger of basePrice
500001/10, the candidate synthetic price 500011/10 differs from the last
fired BUY price by only 1/10 < tick size 2/10 — yet the synthetic event IS
emitted: the code suppresses only exact equality, not a tick-size
deadband. -/
theorem synthetic_dedup_tick_counterexample :
    syntheticOut (processSpotMsg 10 ⟨50000, 9, 50001, 1⟩
      { initialListenerState with
          pendingImbalanceCheck := some ⟨Direction.BUY, 50, 500001/10⟩
          last_fake_buy_price_sent := some 50001 }).2 =
      [⟨EmitKind.synthetic, 500011/10, true⟩] ∧
    |(500011/10 : ℚ) - 50001| < MINIMUM_TICK_SIZE := by
  constructor
  · norm_num [processSpotMsg, normalTickStep, pendingCheckStep, syntheticOut,
      shouldSendPrice, initialListenerState, MINIMUM_TICK_SIZE,
      IMBALANCE_THRESHOLD_UPPER, IMBALANCE_THRESHOLD_LOWER, FAKE_PRICE_OFFSET,
      List.filter, show (decide (EmitKind.normal = EmitKind.synthetic)) = false from rfl]
  · rw [show (500011/10 : ℚ) - 50001 = 1/10 by norm_num]
    rw [show |(1/10 : ℚ)| = 1/10 by rw [abs_of_nonneg] ; norm_num]
    norm_num [MINIMUM_TICK_SIZE]

/-- C7 (amended): on every firing decision (pending trigger, in-window,
qualifying imbalance), the synthetic event is emitted iff the candidate
synthetic price is NOT equal to the last fired synthetic price of the same
direction — exact-equality suppression maintained separately for BUY-fired
and SELL-fired prices, not a tick-size deadband — and the first firing of
each direction (no recorded last price) is always emitted. -/
theorem synthetic_dedup_exact_equality (now : ℤ) (msg : SpotMsg)
    (s : ListenerState) (pc : PendingCheck)
    (hpc : s.pendingImbalanceCheck = some pc)
    (hdl : ¬ now > pc.deadline) (hq : qualifies pc msg) :
    (syntheticOut (processSpotMsg now msg s).2 ≠ [] ↔
      some (fakePriceOf pc) ≠ lastFakeOf s pc.direction) ∧
    (lastFakeOf s pc.direction = none →
      syntheticOut (processSpotMsg now msg s).2 =
        [⟨EmitKind.synthetic, fakePriceOf pc, true⟩]) := by
  obtain ⟨-, h2⟩ := processSpotMsg_fire now msg s pc hpc hdl hq
  constructor
  · rw [h2]
    by_cases hne : some (fakePriceOf pc) ≠ lastFakeOf s pc.direction <;>
      simp [hne]
  · intro hnone
    rw [h2, if_pos]
    rw [hnone]
    simp

/-- Witness for C7: pending SELL trigger (deadline 50, basePrice 50000),
qualifying update with imbalance 1/10 ≤ 17/100 at t = 10, no SELL price
fired before. -/
theorem synthetic_dedup_exact_equality_witness :
    ({ initialListenerState with
        pendingImbalanceCheck := some ⟨Direction.SELL, 50, 50000⟩
        } : ListenerState).pendingImbalanceCheck =
      some ⟨Direction.SELL, 50, 50000⟩ ∧
    ¬ (10 : ℤ) > (50 : ℤ) ∧
    qualifies ⟨Direction.SELL, 50, 50000⟩ ⟨50000, 1, 50001, 9⟩ ∧
    ((syntheticOut (processSpotMsg 10 ⟨50000, 1, 50001, 9⟩
        { initialListenerState with
            pendingImbalanceCheck := some ⟨Direction.SELL, 50, 50000⟩
            }).2 ≠ [] ↔
      some (fakePriceOf ⟨Direction.SELL, 50, 50000⟩) ≠
        lastFakeOf { initialListenerState with
            pendingImbalanceCheck := some ⟨Direction.SELL, 50, 50000⟩
            } (PendingCheck.mk Direction.SELL 50 50000).direction) ∧
      (lastFakeOf { initialListenerState with
          pendingImbalanceCheck := some ⟨Direction.SELL, 50, 50000⟩
          } (PendingCheck.mk Direction.SELL 50 50000).direction = none →
        syntheticOut (processSpotMsg 10 ⟨50000, 1, 50001, 9⟩
          { initialListenerState with
              pendingImbalanceCheck := some ⟨Direction.SELL, 50, 50000⟩
              }).2 =
          [⟨EmitKind.synthetic, fakePriceOf ⟨Direction.SELL, 50, 50000⟩,
            true⟩])) :=
  ⟨rfl, by norm_num, by norm_num [qualifies, IMBALANCE_THRESHOLD_LOWER],
    synthetic_dedup_exact_equality 10 ⟨50000, 1, 50001, 9⟩
      { initialListenerState with
          pendingImbalanceCheck := some ⟨Direction.SELL, 50, 50000⟩ }
      ⟨Direction.SELL, 50, 50000⟩ rfl (by norm_num)
      (by norm_num [qualifies, IMBALANCE_THRESHOLD_LOWER])⟩

/-- C9: starting from a state whose shared payload object carries no `f`
field, every payload sent by the spot handler over any run carries
`f: true` iff it is a synthetic fake-price emission — the `f` field is set
right before a synthetic send and deleted right after, so normal ticks
anywhere in the run are serialized without it — and the no-`f` invariant
is preserved. -/
theorem payload_fake_marker (s : ListenerState) (l : List (ℤ × SpotMsg))
    (h : s.payloadF = false) :
    (∀ e ∈ (runSpot s l).2,
      (e.fFlag = true ↔ e.kind = EmitKind.synthetic)) ∧
    (runSpot s l).1.payloadF = false := by
  induction l generalizing s with
  | nil =>
    refine ⟨fun e he => ?_, ?_⟩
    · simp [runSpot] at he
    · simpa [runSpot] using h
  | cons hd tl ih =>
    obtain ⟨t, m⟩ := hd
    obtain ⟨hstep, hpf⟩ := processSpotMsg_marker_step t m s h
    obtain ⟨hrest, hpf2⟩ := ih (processSpotMsg t m s).1 hpf
    refine ⟨fun e he => ?_, ?_⟩
    · simp only [runSpot] at he
      rcases List.mem_append.mp he with hmem | hmem
      · exact hstep e hmem
      · exact hrest e hmem
    · simp only [runSpot]
      exact hpf2

/-- Witness for C9: a run of one qualifying spot message from a pending
BUY trigger, which sends both a normal tick and a synthetic event. -/
theorem payload_fake_marker_witness :
    ({ initialListenerState with
        pendingImbalanceCheck := some ⟨Direction.BUY, 50, 50000⟩
        } : ListenerState).payloadF = false ∧
    ((∀ e ∈ (runSpot { initialListenerState with
          pendingImbalanceCheck := some ⟨Direction.BUY, 50, 50000⟩ }
        [(10, ⟨50000, 9, 50001, 1⟩)]).2,
        (e.fFlag = true ↔ e.kind = EmitKind.synthetic)) ∧
      (runSpot { initialListenerState with
          pendingImbalanceCheck := some ⟨Direction.BUY, 50, 50000⟩ }
        [(10, ⟨50000, 9, 50001, 1⟩)]).1.payloadF = false) :=
  ⟨rfl, payload_fake_marker
    { initialListenerState with
        pendingImbalanceCheck := some ⟨Direction.BUY, 50, 50000⟩ }
    [(10, ⟨50000, 9, 50001, 1⟩)] rfl⟩

/-! ### Aggregator lemmas -/

lemma calcAvg_sources (s : AggState) (src : AggSource) :
    getSource (calculateAndSendAverage s).1 src = getSource s src := by
  unfold calculateAndSendAverage
  dsimp only
  split_ifs <;> cases src <;> rfl

lemma getSource_setSource (src : AggSource) (p : ℚ) (s : AggState) :
    getSource (setSource src (some p) s) src = some p := by
  cases src <;> rfl

lemma setSource_last (src : AggSource) (v : Option ℚ) (s : AggState) :
    (setSource src v s).last_sent_price = s.last_sent_price := by
  cases src <;> rfl

lemma validPrices_setSource_ne (src : AggSource) (p : ℚ) (s : AggState) :
    validPrices (setSource src (some p) s) ≠ [] := by
  cases src <;>
    · simp only [validPrices, setSource]
      exact List.ne_nil_of_mem
        (List.mem_filterMap.mpr ⟨some p, by simp, rfl⟩)

/-- C3: an accepted update from source `src` stores that source's latest
price; the emission is exactly the arithmetic mean of the currently
present sources when the deadband keyed on `last_sent_price` passes, and
nothing otherwise; with no present source nothing is emitted; a closed
source's entry is removed from the mean. Concretely: updates
bybit := 100, okx := 102 emit the average 101; after bybit disconnects,
updating okx to 104 emits 104, the mean over {okx} alone. -/
theorem aggregator_mean_over_present (src : AggSource) (p : ℚ)
    (s : AggState) :
    getSource (onTradeMessage src p s).1 src = some p ∧
    (onTradeMessage src p s).2 =
      (if shouldSendPrice AVERAGE_PRICE_CHANGE_THRESHOLD s.last_sent_price
          ((validPrices (setSource src (some p) s)).sum /
            ((validPrices (setSource src (some p) s)).length : ℚ)) then
        [(validPrices (setSource src (some p) s)).sum /
          ((validPrices (setSource src (some p) s)).length : ℚ)]
      else []) ∧
    (validPrices s = [] → calculateAndSendAverage s = (s, [])) ∧
    getSource (onSourceClose src s) src = none ∧
    ((onTradeMessage AggSource.okx 102
        (onTradeMessage AggSource.bybit 100 initialAggState).1).2 =
      [101] ∧
      (onTradeMessage AggSource.okx 104
        (onSourceClose AggSource.bybit
          (onTradeMessage AggSource.okx 102
            (onTradeMessage AggSource.bybit 100
              initialAggState).1).1)).2 = [104]) := by
  refine ⟨?_, ?_, ?_, ?_, ?_, ?_⟩
  · unfold onTradeMessage
    rw [calcAvg_sources]
    exact getSource_setSource src p s
  · unfold onTradeMessage calculateAndSendAverage
    dsimp only
    rw [if_neg (validPrices_setSource_ne src p s), setSource_last]
    split_ifs <;> rfl
  · intro hvp
    unfold calculateAndSendAverage
    dsimp only
    rw [if_pos hvp]
  · cases src <;> rfl
  · have h2 : ([100, 102] : List ℚ) ≠ [] := by simp
    norm_num [onTradeMessage, calculateAndSendAverage, setSource,
      validPrices, onSourceClose, initialAggState, shouldSendPrice,
      AVERAGE_PRICE_CHANGE_THRESHOLD, List.filterMap_cons, h2]
  · have h2 : ([100, 102] : List ℚ) ≠ [] := by simp
    have h3 : ([104] : List ℚ) ≠ [] := by simp
    norm_num [onTradeMessage, calculateAndSendAverage, setSource,
      validPrices, onSourceClose, initialAggState, shouldSendPrice,
      AVERAGE_PRICE_CHANGE_THRESHOLD, List.filterMap_cons, h2, h3]

/-- C8: the out-of-band `set_mode`/`semi_auto` request publishes nothing
to the broadcast topic, leaves the subscriber set unchanged, leaves every
other subscriber's message stream unchanged, and — when the external price
parses — appends exactly the instantaneous-price reply to the requesting
subscriber's own stream. -/
theorem semi_auto_reply_frame (c : ℕ) (req : HubRequest)
    (lastPrice : Option ℚ) (h : Hub) :
    (publicMessageHandler c req lastPrice h).2 = [] ∧
    (publicMessageHandler c req lastPrice h).1.subscribers =
      h.subscribers ∧
    (∀ c', c' ≠ c →
      (publicMessageHandler c req lastPrice h).1.logs c' = h.logs c') ∧
    (req.event = "set_mode" → req.mode = "semi_auto" →
      ∀ p, lastPrice = some p →
        (publicMessageHandler c req lastPrice h).1.logs c =
          h.logs c ++ [HubMsg.instantPrice p]) := by
  unfold publicMessageHandler
  split_ifs with hreq
  · cases lastPrice with
    | none =>
      exact ⟨rfl, rfl, fun c' _ => rfl, fun _ _ p hp => by cases hp⟩
    | some q =>
      refine ⟨rfl, rfl, fun c' hc' => ?_, fun _ _ p hp => ?_⟩
      · dsimp only
        rw [if_neg hc']
      · cases hp
        dsimp only
        rw [if_pos rfl]
  · refine ⟨rfl, rfl, fun c' _ => rfl, fun he hm p hp => ?_⟩
    exact absurd ⟨he, hm⟩ hreq

/-- C10: the Bybit futures listener's message handler emits nothing and
only overwrites the single price buffer (leaving the last-sent register
alone); a scheduler tick sends nothing while the buffer is empty and
otherwise emits exactly the buffered price iff it passes the deadband
against the last actually-sent price (the buffer itself is not cleared);
and two buffered prices with no tick between them collapse to the second
(last-write-wins sampling), so the overwritten price is never emitted. -/
theorem bybit_sampling_scheduler (p q buf : ℚ) (s : BybitListenerState) :
    (bybitOnOrderbookMsg p s).2 = [] ∧
    (bybitOnOrderbookMsg p s).1.price_buffer = some p ∧
    (bybitOnOrderbookMsg p s).1.last_sent_trade_price =
      s.last_sent_trade_price ∧
    (s.price_buffer = none → bybitSchedulerTick s = (s, [])) ∧
    (s.price_buffer = some buf →
      (bybitSchedulerTick s).2 =
        (if shouldSendPrice MINIMUM_TICK_SIZE_BYBIT
            s.last_sent_trade_price buf then [buf] else []) ∧
      (bybitSchedulerTick s).1.last_sent_trade_price =
        (if shouldSendPrice MINIMUM_TICK_SIZE_BYBIT
            s.last_sent_trade_price buf then some buf
        else s.last_sent_trade_price) ∧
      (bybitSchedulerTick s).1.price_buffer = some buf) ∧
    bybitOnOrderbookMsg q (bybitOnOrderbookMsg p s).1 =
      bybitOnOrderbookMsg q s := by
  refine ⟨rfl, rfl, rfl, ?_, ?_, ?_⟩
  · intro hb
    unfold bybitSchedulerTick
    rw [hb]
  · intro hb
    unfold bybitSchedulerTick
    rw [hb]
    dsimp only
    split_ifs <;> exact ⟨rfl, rfl, by first | rfl | exact hb⟩
  · rfl

end Bybit
